import Mathlib

/-!
Shallow embedding of the execution core of agent-mux (`src/core.ts`,
`src/types.ts`) and proofs about its orchestration behavior: termination
classification, cancellation, activity aggregation, heartbeat accounting,
API-key pre-flight and prompt construction.
-/

namespace AgentMux

/-- Engine names, from `types.ts` (`EngineName`). -/
inductive EngineName
  | codex
  | claude
  | opencode
deriving DecidableEq, Repr

/-- Effort levels, from `types.ts` (`EffortLevel`). -/
inductive EffortLevel
  | low
  | medium
  | high
  | xhigh
deriving DecidableEq, Repr

/-- Default timeouts by effort, from `types.ts` (`TIMEOUT_BY_EFFORT`), in ms. -/
def TIMEOUT_BY_EFFORT : EffortLevel → Nat
  | .low => 120000
  | .medium => 600000
  | .high => 1200000
  | .xhigh => 2400000

/-- The tag of an `ActivityItem`, from `types.ts`. -/
inductive ActivityType
  | file_change
  | command
  | file_read
  | mcp_call
  | message
deriving DecidableEq, Repr

/-- An activity item reported by an adapter, from `types.ts` (`ActivityItem`). -/
structure ActivityItem where
  type : ActivityType
  summary : String
  detail : Option String := none
deriving DecidableEq, Repr

/-- The aggregated activity snapshot, from `types.ts` (`Activity`). -/
structure Activity where
  files_changed : List String
  commands_run : List String
  files_read : List String
  mcp_calls : List String
  heartbeat_count : Nat
deriving DecidableEq, Repr

/-- Token counts inside adapter metadata, from `types.ts` (`EngineResult.metadata.tokens`). -/
structure TokenCounts where
  input : Nat
  output : Nat
  reasoning : Option Nat := none
deriving DecidableEq, Repr

/-- Adapter metadata, from `types.ts` (`EngineResult.metadata`). `cost_usd` is a
JavaScript number; it is modelled by its decimal rendering, which no claim
inspects. -/
structure Metadata where
  session_id : Option String := none
  cost_usd : Option String := none
  tokens : Option TokenCounts := none
  turns : Option Nat := none
  model : Option String := none
deriving DecidableEq, Repr

/-- The adapter's successful result, from `types.ts` (`EngineResult`). -/
structure EngineResult where
  response : String
  items : List ActivityItem := []
  metadata : Metadata := {}
deriving DecidableEq, Repr

/-- Output error codes. `types.ts` declares `INVALID_ARGS | SDK_ERROR` on
`ErrorOutput`; `run()` in `core.ts` additionally emits `MISSING_API_KEY`,
so all three appear in the model. -/
inductive ErrorCode
  | INVALID_ARGS
  | SDK_ERROR
  | MISSING_API_KEY
deriving DecidableEq, Repr

/-- The output contract, from `types.ts` (`SuccessOutput` / `ErrorOutput` /
`Output`). Only the success shape carries `timed_out` and `metadata`. -/
inductive Output
  | success (engine : EngineName) (response : String) (timed_out : Bool)
      (duration_ms : Nat) (activity : Activity) (metadata : Metadata)
  | error (engine : EngineName) (error : String) (code : ErrorCode)
      (duration_ms : Nat) (activity : Activity)
deriving DecidableEq, Repr

/-- The `success` discriminant of an `Output`. -/
def Output.successFlag : Output → Bool
  | .success .. => true
  | .error .. => false

/-- The `timed_out` field of an `Output`; error outputs have none. -/
def Output.timedOut : Output → Option Bool
  | .success _ _ t _ _ _ => some t
  | .error .. => none

/-- The `response` field of an `Output`; error outputs have none. -/
def Output.responseOf : Output → Option String
  | .success _ r _ _ _ _ => some r
  | .error .. => none

/-- The `code` field of an `Output`; success outputs have none. -/
def Output.codeOf : Output → Option ErrorCode
  | .success .. => none
  | .error _ _ c _ _ => some c

/-- The `activity` field of an `Output` (present on both shapes). -/
def Output.activityOf : Output → Activity
  | .success _ _ _ _ a _ => a
  | .error _ _ _ _ a => a

/-- Exit code chosen by `writeOutput` in `core.ts`:
`process.exit(result.success ? 0 : 1)`. -/
def exitCode (o : Output) : Nat :=
  if o.successFlag then 0 else 1

/-! ## Activity Collector (`core.ts`, class `ActivityCollector`)

JavaScript `Set<string>` iterates in insertion order and ignores repeated
insertions, so each set is modelled as a duplicate-free list extended by
`setAdd`. -/

/-- `Set.add` on an insertion-ordered set modelled as a list. -/
def setAdd (s : List String) (x : String) : List String :=
  if x ∈ s then s else s ++ [x]

/-- State of `ActivityCollector`: the raw item log plus the four folded
categories. -/
structure ActivityCollector where
  items : List ActivityItem := []
  filesChanged : List String := []
  commandsRun : List String := []
  filesRead : List String := []
  mcpCalls : List String := []
deriving DecidableEq, Repr

/-- `ActivityCollector.addItem`: push the item on the log, then dispatch on
its type; `message` items fall through the switch. -/
def ActivityCollector.addItem (c : ActivityCollector) (item : ActivityItem) :
    ActivityCollector :=
  let c1 := { c with items := c.items ++ [item] }
  match item.type with
  | .file_change => { c1 with filesChanged := setAdd c1.filesChanged item.summary }
  | .command => { c1 with commandsRun := c1.commandsRun ++ [item.summary] }
  | .file_read => { c1 with filesRead := setAdd c1.filesRead item.summary }
  | .mcp_call => { c1 with mcpCalls := c1.mcpCalls ++ [item.summary] }
  | .message => c1

/-- Feed a whole stream of items to the collector, in order. -/
def ActivityCollector.addItems (c : ActivityCollector) (l : List ActivityItem) :
    ActivityCollector :=
  l.foldl ActivityCollector.addItem c

/-- `ActivityCollector.getActivity`: assemble the snapshot from the four
categories and a heartbeat count. -/
def ActivityCollector.getActivity (c : ActivityCollector) (heartbeatCount : Nat) :
    Activity :=
  { files_changed := c.filesChanged
    commands_run := c.commandsRun
    files_read := c.filesRead
    mcp_calls := c.mcpCalls
    heartbeat_count := heartbeatCount }

/-! ### Specification-side list functions for the aggregation claims -/

/-- The summaries of the items of one type, in reported order, with
multiplicity. -/
def summariesOf (t : ActivityType) : List ActivityItem → List String
  | [] => []
  | i :: is => if i.type = t then i.summary :: summariesOf t is else summariesOf t is

/-- First-occurrence deduplication, skipping anything already seen. -/
def dedupFirstAux (seen : List String) : List String → List String
  | [] => []
  | x :: xs => if x ∈ seen then dedupFirstAux seen xs
               else x :: dedupFirstAux (seen ++ [x]) xs

/-- Deduplicate a list keeping the first occurrence of each element. -/
def dedupFirst (l : List String) : List String := dedupFirstAux [] l

theorem foldl_setAdd_eq (l acc : List String) :
    l.foldl setAdd acc = acc ++ dedupFirstAux acc l := by
  induction l generalizing acc with
  | nil => simp [dedupFirstAux]
  | cons x xs ih =>
    by_cases hx : x ∈ acc
    · simp [List.foldl_cons, setAdd, hx, dedupFirstAux, ih]
    · simp [List.foldl_cons, setAdd, hx, dedupFirstAux, ih]

theorem mem_dedupFirstAux {a : String} (l : List String) (seen : List String) :
    a ∈ dedupFirstAux seen l ↔ a ∈ l ∧ a ∉ seen := by
  induction l generalizing seen with
  | nil => simp [dedupFirstAux]
  | cons x xs ih =>
    by_cases hx : x ∈ seen
    · have hax : a = x → a ∈ seen := fun h => h ▸ hx
      simp only [dedupFirstAux, hx, if_true, ih, List.mem_cons]
      tauto
    · have hax : a = x ∨ a ∈ ([] : List String) ↔ a = x := by simp
      have hax2 : a = x → a ∉ seen := fun h hm => hx (h ▸ hm)
      simp only [dedupFirstAux, hx, if_false, List.mem_cons, ih, List.mem_append,
        List.mem_singleton, hax]
      tauto

theorem nodup_dedupFirstAux (l : List String) (seen : List String) :
    (dedupFirstAux seen l).Nodup := by
  induction l generalizing seen with
  | nil => simp [dedupFirstAux]
  | cons x xs ih =>
    by_cases hx : x ∈ seen
    · simpa [dedupFirstAux, hx] using ih seen
    · simp only [dedupFirstAux, hx, if_false, List.nodup_cons]
      refine ⟨fun hmem => ?_, ih (seen ++ [x])⟩
      have := (mem_dedupFirstAux xs (seen ++ [x])).mp hmem
      exact this.2 (by simp)

theorem sublist_dedupFirstAux (l : List String) (seen : List String) :
    (dedupFirstAux seen l).Sublist l := by
  induction l generalizing seen with
  | nil => simp [dedupFirstAux]
  | cons x xs ih =>
    by_cases hx : x ∈ seen
    · simpa [dedupFirstAux, hx] using (ih seen).cons x
    · simpa [dedupFirstAux, hx] using (ih (seen ++ [x])).cons₂ x

theorem addItem_items (c : ActivityCollector) (i : ActivityItem) :
    (c.addItem i).items = c.items ++ [i] := by
  cases i with
  | mk t s d => cases t <;> rfl

theorem addItem_commandsRun (c : ActivityCollector) (i : ActivityItem) :
    (c.addItem i).commandsRun =
      c.commandsRun ++ (if i.type = .command then [i.summary] else []) := by
  cases i with
  | mk t s d => cases t <;> simp [ActivityCollector.addItem]

theorem addItem_mcpCalls (c : ActivityCollector) (i : ActivityItem) :
    (c.addItem i).mcpCalls =
      c.mcpCalls ++ (if i.type = .mcp_call then [i.summary] else []) := by
  cases i with
  | mk t s d => cases t <;> simp [ActivityCollector.addItem]

theorem addItem_filesChanged (c : ActivityCollector) (i : ActivityItem) :
    (c.addItem i).filesChanged =
      (if i.type = .file_change then setAdd c.filesChanged i.summary
       else c.filesChanged) := by
  cases i with
  | mk t s d => cases t <;> simp [ActivityCollector.addItem]

theorem addItem_filesRead (c : ActivityCollector) (i : ActivityItem) :
    (c.addItem i).filesRead =
      (if i.type = .file_read then setAdd c.filesRead i.summary
       else c.filesRead) := by
  cases i with
  | mk t s d => cases t <;> simp [ActivityCollector.addItem]

theorem addItems_commandsRun (l : List ActivityItem) (c : ActivityCollector) :
    (c.addItems l).commandsRun = c.commandsRun ++ summariesOf .command l := by
  induction l generalizing c with
  | nil => simp [ActivityCollector.addItems, summariesOf]
  | cons i is ih =>
    simp only [ActivityCollector.addItems, List.foldl_cons] at *
    rw [ih, addItem_commandsRun]
    by_cases h : i.type = .command <;> simp [summariesOf, h]

theorem addItems_mcpCalls (l : List ActivityItem) (c : ActivityCollector) :
    (c.addItems l).mcpCalls = c.mcpCalls ++ summariesOf .mcp_call l := by
  induction l generalizing c with
  | nil => simp [ActivityCollector.addItems, summariesOf]
  | cons i is ih =>
    simp only [ActivityCollector.addItems, List.foldl_cons] at *
    rw [ih, addItem_mcpCalls]
    by_cases h : i.type = .mcp_call <;> simp [summariesOf, h]

theorem addItems_filesChanged (l : List ActivityItem) (c : ActivityCollector) :
    (c.addItems l).filesChanged =
      (summariesOf .file_change l).foldl setAdd c.filesChanged := by
  induction l generalizing c with
  | nil => simp [ActivityCollector.addItems, summariesOf]
  | cons i is ih =>
    simp only [ActivityCollector.addItems, List.foldl_cons] at *
    rw [ih, addItem_filesChanged]
    by_cases h : i.type = .file_change <;> simp [summariesOf, h]

theorem addItems_filesRead (l : List ActivityItem) (c : ActivityCollector) :
    (c.addItems l).filesRead =
      (summariesOf .file_read l).foldl setAdd c.filesRead := by
  induction l generalizing c with
  | nil => simp [ActivityCollector.addItems, summariesOf]
  | cons i is ih =>
    simp only [ActivityCollector.addItems, List.foldl_cons] at *
    rw [ih, addItem_filesRead]
    by_cases h : i.type = .file_read <;> simp [summariesOf, h]

theorem summariesOf_filter_message (t : ActivityType) (ht : t ≠ .message)
    (l : List ActivityItem) :
    summariesOf t (l.filter (fun i => i.type != ActivityType.message)) =
      summariesOf t l := by
  induction l with
  | nil => rfl
  | cons i is ih =>
    have ht2 : ActivityType.message ≠ t := fun h => ht h.symm
    by_cases hm : i.type = ActivityType.message
    · have h2 : i.type ≠ t := fun h => ht (h ▸ hm)
      simp [List.filter_cons, hm, summariesOf, h2, ih, ht2]
    · by_cases h : i.type = t <;>
        simp [List.filter_cons, hm, summariesOf, h, ih, ht, ht2]

/-! ## Heartbeat Emitter (`core.ts`, class `HeartbeatManager`)

The interval timer is modelled by explicit `tick` events; `elapsedSeconds`
stands for the wall-clock computation `Math.round((Date.now() - startTime)
/ 1000)`. Each heartbeat line goes to the diagnostic channel through the
`stderr.write` captured at construction, recorded here in `stderrLines`. -/

structure HeartbeatManager where
  running : Bool := false
  lastActivity : String := "initializing"
  heartbeatCount : Nat := 0
  stderrLines : List String := []
deriving DecidableEq, Repr

/-- One heartbeat line, as formatted in `HeartbeatManager.start`. -/
def heartbeatLine (elapsedSeconds : Nat) (activity : String) : String :=
  "[heartbeat] " ++ toString elapsedSeconds ++ "s — " ++ activity

/-- `HeartbeatManager.start`: arm the interval timer. -/
def HeartbeatManager.start (h : HeartbeatManager) : HeartbeatManager :=
  { h with running := true }

/-- One firing of the interval callback: bump the counter and write one
line. A cleared interval (`running = false`) never fires, so on a stopped
manager the tick is the identity. -/
def HeartbeatManager.tick (h : HeartbeatManager) (elapsedSeconds : Nat) :
    HeartbeatManager :=
  if h.running then
    { h with
      heartbeatCount := h.heartbeatCount + 1
      stderrLines := h.stderrLines ++ [heartbeatLine elapsedSeconds h.lastActivity] }
  else h

/-- `HeartbeatManager.updateActivity`. -/
def HeartbeatManager.updateActivity (h : HeartbeatManager) (a : String) :
    HeartbeatManager :=
  { h with lastActivity := a }

/-- `HeartbeatManager.stop`: clear the interval timer. -/
def HeartbeatManager.stop (h : HeartbeatManager) : HeartbeatManager :=
  { h with running := false }

/-- `HeartbeatManager.getCount`. -/
def HeartbeatManager.getCount (h : HeartbeatManager) : Nat := h.heartbeatCount

/-- Events affecting the heartbeat manager while the adapter runs: interval
firings, and `onHeartbeat` callbacks forwarding the adapter's status. -/
inductive HBEvent
  | tick (elapsedSeconds : Nat)
  | report (activity : String)
deriving DecidableEq, Repr

def HeartbeatManager.step (h : HeartbeatManager) : HBEvent → HeartbeatManager
  | .tick n => h.tick n
  | .report a => h.updateActivity a

def HeartbeatManager.runEvents (h : HeartbeatManager) (es : List HBEvent) :
    HeartbeatManager :=
  es.foldl HeartbeatManager.step h

theorem runEvents_count_eq_lines (es : List HBEvent) (h : HeartbeatManager)
    (hinv : h.heartbeatCount = h.stderrLines.length) :
    (h.runEvents es).heartbeatCount = (h.runEvents es).stderrLines.length := by
  induction es generalizing h with
  | nil => exact hinv
  | cons e es ih =>
    simp only [HeartbeatManager.runEvents, List.foldl_cons] at *
    apply ih
    cases e with
    | tick n =>
      simp only [HeartbeatManager.step, HeartbeatManager.tick]
      split <;> simp [hinv]
    | report a => simpa [HeartbeatManager.step, HeartbeatManager.updateActivity]

/-! ## Cancellation (`core.ts`, `execute`)

`didTimeout` and `didShutdown` are the two flags in `execute`;
`abortController.abort()` is called only by the deadline callback (after
setting `didTimeout`) and by `shutdownHandler` (after setting
`didShutdown`), so the signal's `aborted` flag equals their disjunction. -/

structure CancelState where
  didTimeout : Bool := false
  didShutdown : Bool := false
deriving DecidableEq, Repr

/-- `abortController.signal.aborted`, derived from the two flags. -/
def CancelState.signalAborted (s : CancelState) : Bool :=
  s.didTimeout || s.didShutdown

/-- The deadline callback passed to `setTimeout`: set `didTimeout`, abort.
It has no guard of its own. -/
def timeoutCallback (s : CancelState) : CancelState :=
  { s with didTimeout := true }

/-- `shutdownHandler`, on SIGINT/SIGTERM: a no-op if an abort was already
triggered, otherwise set `didShutdown` and abort. -/
def shutdownHandler (s : CancelState) : CancelState :=
  if s.didShutdown || s.didTimeout then s else { s with didShutdown := true }

/-- A thrown JavaScript value, by its `name` and `message`. A non-`Error`
throw is represented with the empty name and its string rendering as
message, matching how `execute` reads it. -/
structure JsError where
  name : String
  message : String
deriving DecidableEq, Repr

/-- How the awaited `adapter.run(runConfig, callbacks)` resolves: a result
or a thrown value. -/
inductive AdapterOutcome
  | ok (result : EngineResult)
  | exn (err : JsError)
deriving DecidableEq, Repr

/-- The abort-detection condition of `execute`'s catch branch. -/
def isAbort (c : CancelState) (err : JsError) : Bool :=
  c.didTimeout || c.didShutdown || (err.name == "AbortError") || c.signalAborted

/-! ## Config, prompt construction and the run configuration
(`core.ts`, `ParsedConfig` and the body of `execute`) -/

/-- An MCP server entry, from `mcp-clusters.ts` (`McpServerConfig`). -/
structure McpServerConfig where
  command : String
  args : List String := []
  cwd : Option String := none
  env : List (String × String) := []
deriving DecidableEq, Repr

/-- A resolved skill, from `ParsedConfig.skills`. -/
structure Skill where
  name : String
  dir : String
  content : String
  hasScripts : Bool := false
deriving DecidableEq, Repr

/-- The validated run configuration, from `core.ts` (`ParsedConfig`).
`engineOptions` is an untyped bag in the source (`Record<string, unknown>`);
it is modelled as an association list of rendered values, which every claim
treats opaquely. -/
structure ParsedConfig where
  engine : EngineName
  prompt : String
  cwd : String
  skills : List Skill := []
  model : Option String := none
  effort : EffortLevel
  timeout : Nat
  systemPrompt : Option String := none
  mcpClusters : List String := []
  mcpServers : List (String × McpServerConfig) := []
  engineOptions : List (String × String) := []
deriving DecidableEq, Repr

/-- `.replace(/"/g, "&quot;")` on skill names and directories. -/
def escapeQuotes (s : String) : String :=
  s.foldl (fun acc ch => acc ++ if ch = '"' then "&quot;" else String.singleton ch) ""

/-- One `<skill …>…</skill>` block, as appended inside `execute`. -/
def skillBlock (s : Skill) : String :=
  "<skill name=\"" ++ escapeQuotes s.name ++ "\" source=\"" ++ escapeQuotes s.dir ++
    "/SKILL.md\">\n" ++ s.content ++ "\n</skill>\n\n"

/-- The accumulated skill blocks (local `skillPrefix` in `execute`). -/
def skillBlocksText (skills : List Skill) : String :=
  skills.foldl (fun acc s => acc ++ skillBlock s) ""

/-- Drop trailing zero characters of a fractional rendering. -/
def stripTrailingZeroChars (s : String) : String :=
  ((s.data.reverse.dropWhile (· = '0')).reverse).asString

/-- The string JavaScript prints for the number `t / 1000` in the template
literal of `execute` (exact for every natural `t`: the quotient has at most
three decimal digits, its shortest round-trip rendering). -/
def jsDivideBy1000Str (t : Nat) : String :=
  if t % 1000 = 0 then toString (t / 1000)
  else
    let frac := t % 1000
    let padded := (if frac < 10 then "00" else if frac < 100 then "0" else "") ++
      toString frac
    toString (t / 1000) ++ "." ++ stripTrailingZeroChars padded

/-- Local `basePrompt` in `execute`: skill blocks, then the configured
prompt. -/
def basePromptOf (config : ParsedConfig) : String :=
  skillBlocksText config.skills ++ config.prompt

/-- Local `timeAwarePrompt` in `execute`: the time-budget preamble, then
`basePrompt`. -/
def timeAwarePromptOf (config : ParsedConfig) : String :=
  "You have a time budget of " ++ jsDivideBy1000Str config.timeout ++
    " seconds. Prioritize delivering complete output over exploration.\n\n" ++
    basePromptOf config

/-- What `execute` passes to `adapter.run`, from `types.ts` (`RunConfig`).
The live `signal : AbortSignal` handle is passed by reference and carries no
data of its own; it is not a field of the value model. -/
structure RunConfig where
  prompt : String
  cwd : String
  timeout : Nat
  model : String
  effort : EffortLevel
  mcpServers : List (String × McpServerConfig)
  systemPrompt : Option String
  engineOptions : List (String × String)
deriving DecidableEq, Repr

/-- The `runConfig` object literal built in `execute`
(`model: config.model || ""`). -/
def buildRunConfig (config : ParsedConfig) : RunConfig :=
  { prompt := timeAwarePromptOf config
    cwd := config.cwd
    timeout := config.timeout
    model := config.model.getD ""
    effort := config.effort
    mcpServers := config.mcpServers
    systemPrompt := config.systemPrompt
    engineOptions := config.engineOptions }

/-! ## Termination classification (`core.ts`, `execute` try/catch) -/

/-- The `Output` assembled and written by `execute`, as a function of the
state at the moment the awaited adapter call resolves: the cancellation
flags, the adapter outcome, the collector, the heartbeat manager, and the
measured duration. `cleanup` stops the heartbeat before the count is read,
hence `hb.stop` in every branch. -/
def executeOutput (config : ParsedConfig) (c : CancelState)
    (outcome : AdapterOutcome) (collector : ActivityCollector)
    (hb : HeartbeatManager) (durationMs : Nat) : Output :=
  match outcome with
  | .ok result =>
      .success config.engine result.response (c.didTimeout || c.didShutdown)
        durationMs (collector.getActivity hb.stop.getCount) result.metadata
  | .exn err =>
      if isAbort c err then
        .success config.engine
          (if c.didShutdown then
            "(shutdown requested — partial results may be available in activity log)"
           else
            "(timed out — partial results may be available in activity log)")
          true durationMs (collector.getActivity hb.stop.getCount) {}
      else
        .error config.engine err.message .SDK_ERROR durationMs
          (collector.getActivity hb.stop.getCount)

/-- Whether `execute`'s own finalization (cleanup, output assembly,
serialization) runs to completion or itself throws. -/
inductive FinalizeOutcome
  | normal
  | throws (err : JsError)
deriving DecidableEq, Repr

/-- The empty activity snapshot used by `run()`'s own error outputs. -/
def emptyActivity : Activity :=
  { files_changed := [], commands_run := [], files_read := [], mcp_calls := []
    heartbeat_count := 0 }

/-- The outputs written to the primary channel by `run()` for one run that
reached `execute`: either `execute` writes its single classified output, or
`execute`'s finalization throws and the `.catch` handler in `run()` writes
a single `SDK_ERROR` output (with zero duration and empty activity). -/
def runWrites (config : ParsedConfig) (c : CancelState)
    (outcome : AdapterOutcome) (collector : ActivityCollector)
    (hb : HeartbeatManager) (durationMs : Nat) (fz : FinalizeOutcome) :
    List Output :=
  match fz with
  | .normal => [executeOutput config c outcome collector hb durationMs]
  | .throws err => [.error config.engine err.message .SDK_ERROR 0 emptyActivity]

/-! ## Pre-flight API key check (`core.ts`, `API_KEY_MAP` / `checkApiKey` /
`run`) -/

/-- One entry of `API_KEY_MAP`. -/
structure ApiKeySpec where
  envVar : String
  hardError : Bool
  hint : String
deriving DecidableEq, Repr

/-- `API_KEY_MAP` from `core.ts`. -/
def API_KEY_MAP : EngineName → ApiKeySpec
  | .codex =>
    { envVar := "OPENAI_API_KEY"
      hardError := false
      hint := "Get one at https://platform.openai.com/api-keys — or run `codex auth` to set up OAuth device auth" }
  | .claude =>
    { envVar := "ANTHROPIC_API_KEY"
      hardError := false
      hint := "Get one at https://console.anthropic.com/ — or use Claude Code device OAuth (SDK handles auth automatically)" }
  | .opencode =>
    { envVar := "OPENROUTER_API_KEY"
      hardError := false
      hint := "Get one at https://openrouter.ai/keys — or configure provider keys directly in OpenCode" }

/-- Result shape of `checkApiKey`. -/
structure KeyCheckResult where
  ok : Bool
  warning : Option String := none
  error : Option String := none
deriving DecidableEq, Repr

/-- The source guard `value && value.trim().length > 0`: the variable is
set and holds at least one non-whitespace character (an unset variable and
the empty string are both falsy, so `none` and `some ""` coincide). -/
def keyValuePresent (envValue : Option String) : Bool :=
  (envValue.getD "").data.any (fun ch => !ch.isWhitespace)

/-- `checkApiKey`, as a function of the relevant environment variable's
value (`none` for unset) and of whether `~/.codex/auth.json` holds OAuth
tokens (`hasCodexOAuth()`). -/
def checkApiKey (engine : EngineName) (envValue : Option String)
    (codexOAuth : Bool) : KeyCheckResult :=
  let spec := API_KEY_MAP engine
  if keyValuePresent envValue then { ok := true }
  else if engine == .codex && codexOAuth then { ok := true }
  else
    let message := spec.envVar ++ " is not set. " ++ spec.hint
    if spec.hardError then { ok := false, error := some message }
    else { ok := true, warning := some message }

/-- The pre-flight branch of `run()`: emit a `MISSING_API_KEY` error output
and exit 1 when the check fails, otherwise proceed (after writing the
warning line, if any, to the diagnostic channel). -/
inductive PreflightResult
  | missingKey (out : Output)
  | proceed (warning : Option String)
deriving DecidableEq, Repr

def runPreflight (engine : EngineName) (envValue : Option String)
    (codexOAuth : Bool) : PreflightResult :=
  let keyCheck := checkApiKey engine envValue codexOAuth
  if keyCheck.ok then .proceed keyCheck.warning
  else
    .missingKey (.error engine (keyCheck.error.getD "") .MISSING_API_KEY 0
      emptyActivity)

/-! ## Concrete fixtures for witnesses and counterexamples -/

/-- A sample validated configuration. -/
def cfg0 : ParsedConfig :=
  { engine := .codex, prompt := "do it", cwd := "/tmp", effort := .medium,
    timeout := 600000 }

/-- A sample adapter result. -/
def r0 : EngineResult := { response := "done" }

/-! ## Claims -/

/-- C1: every Output produced by `execute` whose `timed_out` field is true
is a Success output (Error outputs have no `timed_out` field at all), and a
termination caused by cancellation — deadline expiry, external interrupt,
or an adapter-observed abort unwinding as an `AbortError` — always yields a
Success output and never an error code. -/
theorem timed_out_implies_success (config : ParsedConfig) (c : CancelState)
    (outcome : AdapterOutcome) (collector : ActivityCollector)
    (hb : HeartbeatManager) (d : Nat) :
    ((executeOutput config c outcome collector hb d).timedOut = some true →
      (executeOutput config c outcome collector hb d).successFlag = true)
    ∧ ((c.didTimeout || c.didShutdown) = true →
      (executeOutput config c outcome collector hb d).successFlag = true
      ∧ (executeOutput config c outcome collector hb d).codeOf = none)
    ∧ (∀ err : JsError, err.name = "AbortError" →
      (executeOutput config c (.exn err) collector hb d).successFlag = true
      ∧ (executeOutput config c (.exn err) collector hb d).codeOf = none) := by
  refine ⟨?_, ?_, ?_⟩
  · cases outcome with
    | ok r => intro _; rfl
    | exn e =>
      simp only [executeOutput]
      split
      · intro _; rfl
      · intro h; simp [Output.timedOut] at h
  · intro h
    cases outcome with
    | ok r => exact ⟨rfl, rfl⟩
    | exn e =>
      cases hT : c.didTimeout <;> cases hS : c.didShutdown <;>
        simp_all [executeOutput, isAbort, CancelState.signalAborted,
          Output.successFlag, Output.codeOf]
  · intro err hname
    have habort : isAbort c err = true := by simp [isAbort, hname]
    simp [executeOutput, habort, Output.successFlag, Output.codeOf]

/-- C1 witness: a deadline-expired run in which the adapter threw an
ordinary error still yields a Success output with no error code. -/
theorem timed_out_implies_success_witness :
    (executeOutput cfg0 ⟨true, false⟩ (.exn ⟨"Error", "boom"⟩) {} {} 5).successFlag
        = true
    ∧ (executeOutput cfg0 ⟨true, false⟩ (.exn ⟨"Error", "boom"⟩) {} {} 5).codeOf
        = none :=
  (timed_out_implies_success cfg0 ⟨true, false⟩ (.exn ⟨"Error", "boom"⟩)
    {} {} 5).2.1 (by decide)

/-- C2: when the adapter throws, cancellation always wins classification:
if the cancellation signal was set (deadline timeout or external interrupt)
or the exception is an `AbortError`, the run is Success with
`timed_out = true`; the `SDK_ERROR` output is produced exactly when the
exception is not attributable to cancellation. -/
theorem cancellation_wins_classification (config : ParsedConfig)
    (c : CancelState) (err : JsError) (collector : ActivityCollector)
    (hb : HeartbeatManager) (d : Nat) :
    (isAbort c err = true →
      (executeOutput config c (.exn err) collector hb d).successFlag = true
      ∧ (executeOutput config c (.exn err) collector hb d).timedOut = some true)
    ∧ ((executeOutput config c (.exn err) collector hb d).codeOf
          = some .SDK_ERROR
        ↔ isAbort c err = false) := by
  constructor
  · intro h
    simp [executeOutput, h, Output.successFlag, Output.timedOut]
  · simp only [executeOutput]
    split
    · rename_i h
      simp [Output.codeOf, h]
    · rename_i h
      simp only [Output.codeOf, Option.some.injEq, true_iff]
      simpa using h

/-- C2 witness: an external interrupt was observed, so the adapter's
unrelated `TypeError` is still classified as Success / timed out. -/
theorem cancellation_wins_classification_witness :
    (executeOutput cfg0 ⟨false, true⟩ (.exn ⟨"TypeError", "x"⟩) {} {} 2).successFlag
        = true
    ∧ (executeOutput cfg0 ⟨false, true⟩ (.exn ⟨"TypeError", "x"⟩) {} {} 2).timedOut
        = some true :=
  (cancellation_wins_classification cfg0 ⟨false, true⟩ ⟨"TypeError", "x"⟩
    {} {} 2).1 (by decide)

/-- C3: every termination path of a run — adapter success, cancellation,
adapter exception, and an exception raised during the orchestrator's own
finalization (caught by `run()`'s rejection handler) — writes exactly one
Output document; and when the deadline callback and an external interrupt
fire within the same tick, in either order, the single Output carries the
single cancellation classification (Success with `timed_out = true`). -/
theorem every_path_writes_one_output (config : ParsedConfig) (c : CancelState)
    (outcome : AdapterOutcome) (collector : ActivityCollector)
    (hb : HeartbeatManager) (d : Nat) (fz : FinalizeOutcome) :
    (runWrites config c outcome collector hb d fz).length = 1
    ∧ (∀ o ∈ runWrites config (shutdownHandler (timeoutCallback {})) outcome
          collector hb d .normal,
        o.successFlag = true ∧ o.timedOut = some true)
    ∧ (∀ o ∈ runWrites config (timeoutCallback (shutdownHandler {})) outcome
          collector hb d .normal,
        o.successFlag = true ∧ o.timedOut = some true) := by
  refine ⟨?_, ?_, ?_⟩
  · cases fz <;> rfl
  · intro o ho
    simp only [runWrites, List.mem_singleton] at ho
    subst ho
    cases outcome with
    | ok r => exact ⟨rfl, rfl⟩
    | exn e => exact ⟨rfl, rfl⟩
  · intro o ho
    simp only [runWrites, List.mem_singleton] at ho
    subst ho
    cases outcome with
    | ok r => exact ⟨rfl, rfl⟩
    | exn e => exact ⟨rfl, rfl⟩

/-- C3 witness: a concrete run writes one output, and with deadline and
interrupt both fired in the same tick the single output is Success. -/
theorem every_path_writes_one_output_witness :
    (runWrites cfg0 ⟨false, false⟩ (.ok r0) {} {} 3 .normal).length = 1
    ∧ (executeOutput cfg0 (shutdownHandler (timeoutCallback {})) (.ok r0)
        {} {} 3).successFlag = true :=
  ⟨(every_path_writes_one_output cfg0 ⟨false, false⟩ (.ok r0) {} {} 3 .normal).1,
   ((every_path_writes_one_output cfg0 ⟨false, false⟩ (.ok r0) {} {} 3
        .normal).2.1
      (executeOutput cfg0 (shutdownHandler (timeoutCallback {})) (.ok r0) {} {} 3)
      (by simp [runWrites])).1⟩

/-- C4: folding any reported item stream into the aggregator yields:
`files_changed` and `files_read` deduplicated with surviving order equal to
first occurrence (a duplicate-free sublist of the reported summaries);
`commands_run` and `mcp_calls` in full reported order and multiplicity; and
`message` items contributing nothing to the snapshot. -/
theorem activity_aggregation (l : List ActivityItem) (n : Nat) :
    ((ActivityCollector.addItems {} l).getActivity n).files_changed =
        dedupFirst (summariesOf .file_change l)
    ∧ ((ActivityCollector.addItems {} l).getActivity n).commands_run =
        summariesOf .command l
    ∧ ((ActivityCollector.addItems {} l).getActivity n).files_read =
        dedupFirst (summariesOf .file_read l)
    ∧ ((ActivityCollector.addItems {} l).getActivity n).mcp_calls =
        summariesOf .mcp_call l
    ∧ (dedupFirst (summariesOf .file_change l)).Nodup
    ∧ (dedupFirst (summariesOf .file_change l)).Sublist
        (summariesOf .file_change l)
    ∧ (dedupFirst (summariesOf .file_read l)).Nodup
    ∧ (dedupFirst (summariesOf .file_read l)).Sublist
        (summariesOf .file_read l)
    ∧ ((ActivityCollector.addItems {} l).getActivity n) =
        ((ActivityCollector.addItems {}
          (l.filter (fun i => i.type != ActivityType.message))).getActivity n) := by
  have hfc := summariesOf_filter_message .file_change (by decide) l
  have hcr := summariesOf_filter_message .command (by decide) l
  have hfr := summariesOf_filter_message .file_read (by decide) l
  have hmc := summariesOf_filter_message .mcp_call (by decide) l
  refine ⟨?_, ?_, ?_, ?_, nodup_dedupFirstAux _ _, sublist_dedupFirstAux _ _,
    nodup_dedupFirstAux _ _, sublist_dedupFirstAux _ _, ?_⟩
  · simp [ActivityCollector.getActivity, addItems_filesChanged,
      foldl_setAdd_eq, dedupFirst]
  · simp [ActivityCollector.getActivity, addItems_commandsRun]
  · simp [ActivityCollector.getActivity, addItems_filesRead,
      foldl_setAdd_eq, dedupFirst]
  · simp [ActivityCollector.getActivity, addItems_mcpCalls]
  · simp [ActivityCollector.getActivity, addItems_filesChanged,
      addItems_commandsRun, addItems_filesRead, addItems_mcpCalls,
      foldl_setAdd_eq, hfc, hcr, hfr, hmc]

/-- C5: for every run and every termination class — adapter success,
cancellation, and adapter failure — the `heartbeat_count` in the Output's
activity snapshot equals the number of heartbeat lines written to the
diagnostic channel during the run; and a tick arriving after the
orchestrator has stopped the heartbeat (the first step of finalization)
leaves the manager unchanged, so no line is written and no count bumped
after that point. -/
theorem heartbeat_count_exact (config : ParsedConfig) (c : CancelState)
    (outcome : AdapterOutcome) (collector : ActivityCollector)
    (es : List HBEvent) (d : Nat) :
    ((executeOutput config c outcome collector
        (HeartbeatManager.runEvents (HeartbeatManager.start {}) es)
        d).activityOf).heartbeat_count
      = ((HeartbeatManager.runEvents (HeartbeatManager.start {})
          es).stderrLines).length
    ∧ (∀ (hb : HeartbeatManager) (m : Nat), (hb.stop).tick m = hb.stop) := by
  constructor
  · have hcount := runEvents_count_eq_lines es (HeartbeatManager.start {}) rfl
    cases outcome with
    | ok r =>
      simpa [executeOutput, Output.activityOf, ActivityCollector.getActivity,
        HeartbeatManager.stop, HeartbeatManager.getCount] using hcount
    | exn e =>
      by_cases h : isAbort c e = true <;>
        simp [executeOutput, h, Output.activityOf, ActivityCollector.getActivity,
          HeartbeatManager.stop, HeartbeatManager.getCount, hcount]
  · intro hb m
    simp [HeartbeatManager.stop, HeartbeatManager.tick]

/-- The collector of a run in which one command was reported, as it stands
when the termination snapshot is taken. -/
def c6Collector : ActivityCollector :=
  ActivityCollector.addItems {} [{ type := .command, summary := "ls" }]

/-- C6 counterexample: an ActivityItem arriving after the termination
snapshot was taken is not dropped — the collector records it (its state
changes, and the snapshot recomputed from it differs from the finalized
one). -/
theorem late_item_not_dropped :
    ¬ ((c6Collector.addItem { type := .command, summary := "ls" }) = c6Collector
       ∧ ((c6Collector.addItem { type := .command, summary := "ls" }).getActivity 0)
          = c6Collector.getActivity 0) := by
  decide

/-- C6 amended: the collector has no finalization state — an ActivityItem
arriving after the snapshot query is appended exactly like any other: the
item log always grows, and a late `command` or `mcp_call` item extends the
`commands_run` / `mcp_calls` lists of any subsequently taken snapshot. -/
theorem late_items_appended (c : ActivityCollector) (i : ActivityItem)
    (n : Nat) :
    (c.addItem i).items = c.items ++ [i]
    ∧ (i.type = .command →
        ((c.addItem i).getActivity n).commands_run =
          (c.getActivity n).commands_run ++ [i.summary])
    ∧ (i.type = .mcp_call →
        ((c.addItem i).getActivity n).mcp_calls =
          (c.getActivity n).mcp_calls ++ [i.summary]) := by
  refine ⟨addItem_items c i, ?_, ?_⟩
  · intro h
    simp [ActivityCollector.getActivity, addItem_commandsRun, h]
  · intro h
    simp [ActivityCollector.getActivity, addItem_mcpCalls, h]

/-- C6 amended witness: a command reported after the snapshot shows up in
the next snapshot's `commands_run`. -/
theorem late_items_appended_witness :
    ((c6Collector.addItem { type := .command, summary := "pwd" }).getActivity 0).commands_run
      = (c6Collector.getActivity 0).commands_run ++ ["pwd"] :=
  (late_items_appended c6Collector { type := .command, summary := "pwd" } 0).2.1
    rfl

/-- C7 counterexample: an external interrupt arrived mid-run
(`didShutdown = true`) but the adapter still returned a best-effort
result; the Output's response is then the adapter's text, not the
documented interrupted placeholder. -/
theorem interrupt_placeholder_cex :
    ¬ ((executeOutput cfg0 ⟨false, true⟩ (.ok { response := "partial text" })
          {} {} 7).responseOf =
        some "(shutdown requested — partial results may be available in activity log)") := by
  decide

/-- C7 amended: when an external interrupt arrives mid-run the Output is
always Success with `timed_out = true`; the response is the documented
interrupted placeholder when the adapter terminates by throwing, but when
the adapter returns a best-effort EngineResult despite the interrupt the
response is the adapter's returned text. -/
theorem interrupt_classification (config : ParsedConfig) (c : CancelState)
    (err : JsError) (r : EngineResult) (collector : ActivityCollector)
    (hb : HeartbeatManager) (d : Nat) (h : c.didShutdown = true) :
    ((executeOutput config c (.exn err) collector hb d).successFlag = true
    ∧ (executeOutput config c (.exn err) collector hb d).timedOut = some true
    ∧ (executeOutput config c (.exn err) collector hb d).responseOf =
        some "(shutdown requested — partial results may be available in activity log)")
    ∧ ((executeOutput config c (.ok r) collector hb d).successFlag = true
    ∧ (executeOutput config c (.ok r) collector hb d).timedOut = some true
    ∧ (executeOutput config c (.ok r) collector hb d).responseOf =
        some r.response) := by
  have habort : isAbort c err = true := by simp [isAbort, h]
  constructor
  · simp [executeOutput, habort, h, Output.successFlag, Output.timedOut,
      Output.responseOf]
  · simp [executeOutput, h, Output.successFlag, Output.timedOut,
      Output.responseOf]

/-- C7 amended witness: interrupt plus adapter throw yields the interrupted
placeholder response. -/
theorem interrupt_classification_witness :
    (executeOutput cfg0 ⟨false, true⟩ (.exn ⟨"AbortError", "aborted"⟩)
        {} {} 4).responseOf =
      some "(shutdown requested — partial results may be available in activity log)" :=
  (interrupt_classification cfg0 ⟨false, true⟩ ⟨"AbortError", "aborted"⟩
    r0 {} {} 4 rfl).1.2.2

/-- C8: when the adapter returns a result with neither the deadline timer
nor an external interrupt having fired, the Output is Success with
`timed_out = false` and the adapter's response text, the process exits 0,
and exit code 1 is produced exactly for Error outputs. -/
theorem normal_completion (config : ParsedConfig) (r : EngineResult)
    (collector : ActivityCollector) (hb : HeartbeatManager) (d : Nat) :
    (executeOutput config ⟨false, false⟩ (.ok r) collector hb d).successFlag
        = true
    ∧ (executeOutput config ⟨false, false⟩ (.ok r) collector hb d).timedOut
        = some false
    ∧ (executeOutput config ⟨false, false⟩ (.ok r) collector hb d).responseOf
        = some r.response
    ∧ exitCode (executeOutput config ⟨false, false⟩ (.ok r) collector hb d) = 0
    ∧ (∀ o : Output, exitCode o = 1 ↔ o.successFlag = false) := by
  refine ⟨rfl, rfl, rfl, rfl, ?_⟩
  intro o
  cases o <;> simp [exitCode, Output.successFlag]

/-- C9: a missing API-key environment variable never produces an Error
output: every `API_KEY_MAP` entry has `hardError = false` (and Codex
additionally accepts OAuth tokens), so `checkApiKey` always returns
`ok = true`, the `MISSING_API_KEY` branch of `run()` is unreachable, and a
missing key yields only the diagnostic warning before the run proceeds. -/
theorem missing_api_key_unreachable (engine : EngineName)
    (envValue : Option String) (codexOAuth : Bool) :
    (API_KEY_MAP engine).hardError = false
    ∧ (checkApiKey engine envValue codexOAuth).ok = true
    ∧ runPreflight engine envValue codexOAuth =
        .proceed (checkApiKey engine envValue codexOAuth).warning
    ∧ (keyValuePresent envValue = false →
        ¬ (engine = .codex ∧ codexOAuth = true) →
        (checkApiKey engine envValue codexOAuth).warning =
          some ((API_KEY_MAP engine).envVar ++ " is not set. " ++
            (API_KEY_MAP engine).hint)) := by
  have hok : (checkApiKey engine envValue codexOAuth).ok = true := by
    cases engine <;>
      (simp only [checkApiKey, API_KEY_MAP]
       split_ifs <;> simp_all)
  refine ⟨by cases engine <;> rfl, hok, ?_, ?_⟩
  · simp [runPreflight, hok]
  · intro h1 h2
    have h3 : (engine == EngineName.codex && codexOAuth) = false := by
      cases engine <;> cases codexOAuth <;> simp_all
    cases engine <;> simp_all [checkApiKey, API_KEY_MAP]

/-- C9 witness: with `ANTHROPIC_API_KEY` unset, the Claude pre-flight check
still passes with only a warning. -/
theorem missing_api_key_unreachable_witness :
    (checkApiKey .claude none false).warning =
      some ((API_KEY_MAP .claude).envVar ++ " is not set. " ++
        (API_KEY_MAP .claude).hint) :=
  (missing_api_key_unreachable .claude none false).2.2.2 (by decide) (by decide)

/-- A skill as loaded from a SKILL.md file. -/
def skill1 : Skill := { name := "s1", dir := "/d", content := "SKILL BODY" }

/-- A validated configuration with one loaded skill. -/
def cfgSkill : ParsedConfig :=
  { engine := .claude, prompt := "do it", cwd := "/tmp", effort := .medium,
    timeout := 600000, skills := [skill1] }

/-- C10 counterexample: with one loaded skill, the prompt handed to the
adapter is not of the claimed form "skill blocks, then time-budget
preamble, then original prompt" — the preamble comes first in the code. -/
theorem prompt_order_cex :
    ¬ ((buildRunConfig cfgSkill).prompt =
        skillBlocksText cfgSkill.skills ++
          "You have a time budget of 600 seconds. Prioritize delivering complete output over exploration.\n\n" ++
          cfgSkill.prompt) := by
  decide

/-- C10 amended: `execute` passes the adapter a prompt equal to the
time-budget preamble (the budget rendered as `timeout / 1000` seconds)
followed by the loaded skill blocks followed by the original prompt text,
while the remaining RunConfig fields are passed through unchanged (`model`
defaulting to the empty string when unset; the live cancellation signal is
passed by reference). -/
theorem run_config_construction (config : ParsedConfig) :
    (buildRunConfig config).prompt =
      "You have a time budget of " ++ jsDivideBy1000Str config.timeout ++
        " seconds. Prioritize delivering complete output over exploration.\n\n" ++
        (skillBlocksText config.skills ++ config.prompt)
    ∧ (buildRunConfig config).cwd = config.cwd
    ∧ (buildRunConfig config).timeout = config.timeout
    ∧ (buildRunConfig config).model = config.model.getD ""
    ∧ (buildRunConfig config).effort = config.effort
    ∧ (buildRunConfig config).mcpServers = config.mcpServers
    ∧ (buildRunConfig config).systemPrompt = config.systemPrompt
    ∧ (buildRunConfig config).engineOptions = config.engineOptions :=
  ⟨rfl, rfl, rfl, rfl, rfl, rfl, rfl, rfl⟩

end AgentMux
